import Mathlib

/-!
# Shallow embedding of the MCPDemo weekly-report servers

This file embeds the notification core of `weekly_report_sse_server.py` and the
plain tool `weekly_report_server.py`.

The SSE server's state is a handful of module-level globals:
`latest_report` (a dict with keys `filename` and `content`), `report_event`
(an `asyncio.Event`), and `connected_clients` (a set of client ids).  Each SSE
connection runs one instance of the async generator `event_generator`, which
registers the client, yields a `connected` event, yields the latest report if
one exists, and then loops: `await report_event.wait()`, yield the latest
report, `report_event.clear()`.

Concurrency model: asyncio is cooperative and single-threaded, so every block
of code between two suspension points (an `await` that actually suspends, or a
`yield` of the async generator) executes atomically.  `write_weekly_report_sse`
contains no `await`, so an entire tool call is one atomic step.  A subscriber
coroutine is therefore a small state machine whose states are its suspension
points, and the whole system is an interleaving of atomic steps.

`asyncio.Event` semantics, which the embedding mirrors exactly: `set()` puts
the flag up and resolves the future of every waiter currently pending in
`wait()`; a later `clear()` only lowers the flag and does not revoke an
already-resolved waiter, so a woken waiter always proceeds.  `wait()` returns
immediately, without suspending, when the flag is already up.

A ghost generation counter `gen` (0 initially, incremented by each successful
publish) is threaded through the state and stamped onto the latest payload and
onto every delivered report event.  It changes no behaviour; it only lets the
theorems speak about "the payload of the n-th publish or a later one".
-/

namespace MCPDemo

/-- The directory `REPORTS_DIR`.  The absolute prefix is irrelevant to every claim, so the
relative directory name from the source is kept. -/
def REPORTS_DIR : String := "reports"

/-- The filename generated for a submitted report,
`f"weekly_report_\x7btimestamp\x7d.txt"` (both server variants generate it
identically). -/
def mkFilename (timestamp : String) : String :=
  "weekly_report_" ++ timestamp ++ ".txt"

/-- The path `os.path.join(REPORTS_DIR, filename)`. -/
def filepathOf (filename : String) : String :=
  REPORTS_DIR ++ "/" ++ filename

/-- The module-level dict `latest_report = {"filename": ..., "content": ...}`,
plus the ghost generation counter of the publish that installed it
(0 for the initial empty value). -/
structure LatestReport where
  filename : String
  content : String
  gen : Nat
deriving DecidableEq

/-- The initial `latest_report = {"filename": "", "content": ""}` (absence of
a payload is encoded by the empty filename). -/
def initialLatestReport : LatestReport := ⟨"", "", 0⟩

/-- One serialized SSE event, structurally: either the initial
`{'event': 'connected', ...}` acknowledgment or a
`{'event': 'report', 'filename': ..., 'content': ...}` event.  The `Nat` on a
report event is the ghost generation of the payload it delivered. -/
inductive SSEEvent where
  | connected : SSEEvent
  | report : String → String → Nat → SSEEvent
deriving DecidableEq

/-- The suspension points of one `event_generator` coroutine. -/
inductive Phase where
  /-- suspended at the initial `yield` of the `connected` event -/
  | atConnectedYield
  /-- suspended at the `yield` of the pre-existing latest report -/
  | atInitialYield
  /-- pending inside `await report_event.wait()` (future not yet resolved) -/
  | waiting
  /-- the wait future was resolved by `report_event.set()` but the coroutine
  has not been scheduled yet -/
  | woken
  /-- suspended at the in-loop `yield` of a report event -/
  | atLoopYield
  /-- the generator has terminated (cancellation / transport close); its
  `finally` block has run -/
  | closed
deriving DecidableEq

/-- One SSE connection: the id `id(request)` used as registry key, the
coroutine's current suspension point, and the events yielded to its transport
so far (oldest first). -/
structure Subscriber where
  clientId : Nat
  phase : Phase
  received : List SSEEvent
deriving DecidableEq

/-- The module-level mutable state of `weekly_report_sse_server.py`, plus the
set of in-flight `event_generator` coroutines and a ghost record of the report
files written. -/
structure Sys where
  /-- the global `latest_report` -/
  latest_report : LatestReport
  /-- the flag of the `asyncio.Event` `report_event` -/
  report_event : Bool
  /-- ghost: number of successful publishes so far -/
  gen : Nat
  /-- the live `event_generator` instances, in order of joining -/
  sessions : List Subscriber
  /-- the global `connected_clients` (a Python set of ids) -/
  connected_clients : List Nat
  /-- ghost: the `(filename, content)` records written to `REPORTS_DIR` -/
  files : List (String × String)
deriving DecidableEq

/-- The state at module import: no payload, event flag down, no clients. -/
def initSys : Sys :=
  { latest_report := initialLatestReport
    report_event := false
    gen := 0
    sessions := []
    connected_clients := []
    files := [] }

/-- The session of client `cid`, if one ever joined. -/
def getSub (s : Sys) (cid : Nat) : Option Subscriber :=
  s.sessions.find? (fun x => x.clientId == cid)

/-- Yield one report event built from the current `latest_report`
(the f-string of the `yield` reads `latest_report` at the moment the yield
statement executes), then suspend at phase `ph`. -/
def emitLatest (latest : LatestReport) (sub : Subscriber) (ph : Phase) : Subscriber :=
  { sub with
      phase := ph
      received := sub.received ++ [SSEEvent.report latest.filename latest.content latest.gen] }

/-- Resume the coroutine of one subscriber from its suspension point and run it
until the next suspension point.  Returns the updated subscriber and the new
value of the `report_event` flag (only the `clear()` after the in-loop yield
changes it).  A pending waiter cannot be resumed by the scheduler (its future
is unresolved), and a closed generator never runs again. -/
def resumeSub (latest : LatestReport) (flag : Bool) (sub : Subscriber) :
    Subscriber × Bool :=
  match sub.phase with
  | Phase.atConnectedYield =>
      -- `if latest_report["filename"]:` — Python truthiness of the string
      if latest.filename = "" then
        -- falls through to `await report_event.wait()`; if the flag is up the
        -- wait returns without suspending and the loop yield runs at once
        if flag then (emitLatest latest sub Phase.atLoopYield, flag)
        else ({ sub with phase := Phase.waiting }, flag)
      else
        (emitLatest latest sub Phase.atInitialYield, flag)
  | Phase.atInitialYield =>
      -- enters `while True:` and calls `await report_event.wait()`
      if flag then (emitLatest latest sub Phase.atLoopYield, flag)
      else ({ sub with phase := Phase.waiting }, flag)
  | Phase.woken =>
      -- `wait()` has returned; the loop yield reads `latest_report` now
      (emitLatest latest sub Phase.atLoopYield, flag)
  | Phase.atLoopYield =>
      -- `report_event.clear()` then back to `await report_event.wait()`,
      -- whose flag was just lowered, so the coroutine suspends as a waiter
      ({ sub with phase := Phase.waiting }, false)
  | Phase.waiting => (sub, flag)
  | Phase.closed => (sub, flag)

/-- The scheduler runs the coroutine of client `cid` (the transport pulled the
next event, or the resolved wait future was scheduled). -/
def resumeClient (s : Sys) (cid : Nat) : Sys :=
  match s.sessions.find? (fun x => x.clientId == cid) with
  | none => s
  | some sub =>
      let p := resumeSub s.latest_report s.report_event sub
      { s with
          report_event := p.2
          sessions := s.sessions.map (fun x => if x.clientId == cid then p.1 else x) }

/-- A new SSE connection: `event_generator` starts, adds `id(request)` to
`connected_clients`, and runs to its first yield, emitting the `connected`
event.  Ids of live requests are distinct, so a join with an id that is still
in use is not a possible behaviour (modelled as a no-op). -/
def joinClient (s : Sys) (cid : Nat) : Sys :=
  if s.sessions.any (fun x => x.clientId == cid) then s
  else
    { s with
        connected_clients :=
          -- Python set add
          if cid ∈ s.connected_clients then s.connected_clients
          else s.connected_clients ++ [cid]
        sessions :=
          s.sessions ++ [{ clientId := cid
                           phase := Phase.atConnectedYield
                           received := [SSEEvent.connected] }] }

/-- Cancellation / transport close of one subscriber, at any suspension point:
`CancelledError` (or `GeneratorExit`) is raised inside the generator and its
`finally` block runs once, doing
`if client_id in connected_clients: connected_clients.remove(client_id)`.
A generator that already terminated never runs its `finally` again. -/
def cancelClient (s : Sys) (cid : Nat) : Sys :=
  match s.sessions.find? (fun x => x.clientId == cid) with
  | none => s
  | some sub =>
      if sub.phase = Phase.closed then s
      else
        { s with
            connected_clients :=
              if cid ∈ s.connected_clients then s.connected_clients.erase cid
              else s.connected_clients
            sessions :=
              s.sessions.map (fun x =>
                if x.clientId == cid then { x with phase := Phase.closed } else x) }

/-- The call `report_event.set()` resolves the future of every pending waiter. -/
def wakeAll (subs : List Subscriber) : List Subscriber :=
  subs.map (fun x =>
    if x.phase = Phase.waiting then { x with phase := Phase.woken } else x)

/-- Lines 153–158 of the SSE server: `latest_report = {"filename": filename,
"content": content}` followed by `report_event.set()`.  The ghost generation
is incremented and stamped on the new payload. -/
def broadcastPublish (filename content : String) (s : Sys) : Sys :=
  { s with
      latest_report := { filename := filename, content := content, gen := s.gen + 1 }
      gen := s.gen + 1
      report_event := true
      sessions := wakeAll s.sessions }

/-- The result dict of either tool.  Absent keys are `none`. -/
structure ToolResult where
  success : Bool
  message : Option String := none
  filename : Option String := none
  filepath : Option String := none
  clients_notified : Option Nat := none
  error : Option String := none
deriving DecidableEq

/-- The tool `write_weekly_report_sse` of `weekly_report_sse_server.py`.
`timestamp` stands for `datetime.now().strftime("%Y%m%d_%H%M%S")`; `err`
models the file write: `none` if `open`/`write` succeed, `some msg` if they
raise an exception with message `msg`.  The body contains no `await`, so the
whole call is one atomic step of the system.  On success the file is recorded,
the latest payload replaced, the event set, and the returned
`clients_notified` is `len(connected_clients)` (the registry is not touched by
a publish). -/
def write_weekly_report_sse (timestamp content : String) (err : Option String)
    (s : Sys) : ToolResult × Sys :=
  if content = "" then
    ({ success := false, error := some "Report content is required" }, s)
  else
    match err with
    | some msg =>
        -- the exception propagates to the `except` clause before
        -- `latest_report` is updated or `report_event` is set
        ({ success := false
           error := some ("Failed to save weekly report: " ++ msg) }, s)
    | none =>
        let filename := mkFilename timestamp
        let s1 := broadcastPublish filename content
          { s with files := s.files ++ [(filename, content)] }
        ({ success := true
           message := some "Weekly report saved successfully and clients notified"
           filename := some filename
           filepath := some (filepathOf filename)
           clients_notified := some s.connected_clients.length }, s1)

/-- The result of the census tool `get_connected_clients`. -/
structure ClientsResult where
  success : Bool
  connected_clients : Nat
deriving DecidableEq

/-- The tool `get_connected_clients`: `len(connected_clients)`. -/
def get_connected_clients (s : Sys) : ClientsResult :=
  { success := true, connected_clients := s.connected_clients.length }

/-- The return value of the plain tool: the annotated `dict`, or — in the
empty-content branch, which calls `json.dumps` — a plain string. -/
inductive PlainReturn where
  | record : ToolResult → PlainReturn
  | text : String → PlainReturn
deriving DecidableEq

/-- The string `json.dumps({"success": False, "error": "Report content is
required"})`, rendered with the default separators. -/
def emptyErrorJson : String :=
  "\x7b\"success\": false, \"error\": \"Report content is required\"\x7d"

/-- The tool `write_weekly_report` of `weekly_report_server.py`.  Same
parameters as the SSE variant; there is no broadcaster state to update.  Note
the empty-content branch returns `json.dumps(...)`, a string, while the other
branches return the dict itself. -/
def write_weekly_report (timestamp content : String) (err : Option String) :
    PlainReturn :=
  if content = "" then
    PlainReturn.text emptyErrorJson
  else
    match err with
    | some msg =>
        PlainReturn.record
          { success := false
            error := some ("Failed to save weekly report: " ++ msg) }
    | none =>
        PlainReturn.record
          { success := true
            message := some "Weekly report saved successfully"
            filename := some (mkFilename timestamp)
            filepath := some (filepathOf (mkFilename timestamp)) }

/-- The atomic steps the event loop can interleave. -/
inductive Label where
  /-- a new SSE connection with request id `cid` runs to its first yield -/
  | join : Nat → Label
  /-- the scheduler resumes the coroutine of client `cid` -/
  | resume : Nat → Label
  /-- one call of the tool `write_weekly_report_sse` -/
  | publish : String → String → Option String → Label
  /-- cancellation / transport close of client `cid` -/
  | cancel : Nat → Label
deriving DecidableEq

/-- Apply one atomic step. -/
def applyLabel (s : Sys) (l : Label) : Sys :=
  match l with
  | Label.join cid => joinClient s cid
  | Label.resume cid => resumeClient s cid
  | Label.publish ts c err => (write_weekly_report_sse ts c err s).2
  | Label.cancel cid => cancelClient s cid

/-- One step of the system. -/
def StepR (s s' : Sys) : Prop := ∃ l, s' = applyLabel s l

/-- Executions: the reflexive-transitive closure of single steps. -/
def Reaches : Sys → Sys → Prop := Relation.ReflTransGen StepR

/-- States of real executions, starting from module import. -/
def Reachable (s : Sys) : Prop := Reaches initSys s

/-! ## Basic list helpers -/

theorem find?_map_of_pred {α : Type} (f : α → α) (p : α → Bool)
    (hf : ∀ x, p (f x) = p x) (l : List α) :
    (l.map f).find? p = (l.find? p).map f := by
  induction l with
  | nil => rfl
  | cons a l ih =>
      by_cases h : p a = true
      · rw [List.map_cons, List.find?_cons_of_pos _ ((hf a).trans h),
          List.find?_cons_of_pos _ h]
        rfl
      · rw [List.map_cons, List.find?_cons_of_neg _ (by rw [hf]; exact h),
          List.find?_cons_of_neg _ h, ih]

theorem head?_append_of_head? {α : Type} {l : List α} {a : α}
    (h : l.head? = some a) (l' : List α) : (l ++ l').head? = some a := by
  cases l with
  | nil => simp at h
  | cons x xs => simpa using h

/-! ## The reachability invariant -/

/-- The invariant every reachable state satisfies: the ghost generation agrees
with the latest payload, the event flag and a woken subscriber certify at
least one publish, filename-emptiness is exactly absence of a payload, every
delivered report event was stamped with a past nonzero generation, every
stream starts with the `connected` acknowledgment, and every live session is
registered. -/
structure Inv (s : Sys) : Prop where
  latestGen : s.latest_report.gen = s.gen
  flagGen : s.report_event = true → 1 ≤ s.gen
  emptyIff : s.latest_report.filename = "" ↔ s.gen = 0
  wokenGen : ∀ sub ∈ s.sessions, sub.phase = Phase.woken → 1 ≤ s.gen
  evGen : ∀ sub ∈ s.sessions, ∀ fn ct g,
    SSEEvent.report fn ct g ∈ sub.received → 1 ≤ g ∧ g ≤ s.gen
  headConn : ∀ sub ∈ s.sessions, sub.received.head? = some SSEEvent.connected
  registry : ∀ sub ∈ s.sessions,
    sub.phase ≠ Phase.closed → sub.clientId ∈ s.connected_clients

theorem mkFilename_ne_empty (ts : String) : mkFilename ts ≠ "" := by
  unfold mkFilename
  intro h
  have h2 := congrArg String.length h
  simp [String.length_append] at h2
  exact absurd h2.1.1 (by decide)

theorem inv_initSys : Inv initSys := by
  constructor <;> simp [initSys, initialLatestReport]

/-- Everything `resumeSub` can do to one subscriber, given it is part of an
invariant-satisfying state: the client id is kept, the phase never becomes
`woken`, the flag is only ever lowered, and the received list either stays or
grows by exactly one report event carrying the current latest payload, which
then certifies a past publish. -/
theorem resumeSub_spec (s : Sys) (hInv : Inv s) (sub : Subscriber)
    (hmem : sub ∈ s.sessions) :
    ((resumeSub s.latest_report s.report_event sub).1.received = sub.received ∨
      ((resumeSub s.latest_report s.report_event sub).1.received =
          sub.received ++
            [SSEEvent.report s.latest_report.filename s.latest_report.content s.gen] ∧
        1 ≤ s.gen)) ∧
    (resumeSub s.latest_report s.report_event sub).1.clientId = sub.clientId ∧
    (resumeSub s.latest_report s.report_event sub).1.phase ≠ Phase.woken ∧
    ((resumeSub s.latest_report s.report_event sub).1.phase = Phase.closed →
      sub.phase = Phase.closed) ∧
    (sub.phase = Phase.closed →
      (resumeSub s.latest_report s.report_event sub).1 = sub) ∧
    ((resumeSub s.latest_report s.report_event sub).2 = true →
      s.report_event = true) := by
  have hgen := hInv.latestGen
  rcases sub with ⟨cid, ph, rcv⟩
  cases ph with
  | atConnectedYield =>
      by_cases hfn : s.latest_report.filename = ""
      · by_cases hflag : s.report_event = true
        · refine ⟨Or.inr ⟨?_, hInv.flagGen hflag⟩, ?_, ?_, ?_, ?_, ?_⟩ <;>
            simp [resumeSub, emitLatest, hfn, hflag, hgen]
        · refine ⟨Or.inl ?_, ?_, ?_, ?_, ?_, ?_⟩ <;>
            simp [resumeSub, emitLatest, hfn, hflag]
      · have hg : 1 ≤ s.gen := by
          rcases Nat.eq_zero_or_pos s.gen with h0 | h1
          · exact absurd (hInv.emptyIff.mpr h0) hfn
          · exact h1
        refine ⟨Or.inr ⟨?_, hg⟩, ?_, ?_, ?_, ?_, ?_⟩ <;>
          simp [resumeSub, emitLatest, hfn, hgen]
  | atInitialYield =>
      by_cases hflag : s.report_event = true
      · refine ⟨Or.inr ⟨?_, hInv.flagGen hflag⟩, ?_, ?_, ?_, ?_, ?_⟩ <;>
          simp [resumeSub, emitLatest, hflag, hgen]
      · refine ⟨Or.inl ?_, ?_, ?_, ?_, ?_, ?_⟩ <;>
          simp [resumeSub, emitLatest, hflag]
  | waiting =>
      refine ⟨Or.inl ?_, ?_, ?_, ?_, ?_, ?_⟩ <;> simp [resumeSub]
  | woken =>
      refine ⟨Or.inr ⟨?_, hInv.wokenGen _ hmem rfl⟩, ?_, ?_, ?_, ?_, ?_⟩ <;>
        simp [resumeSub, emitLatest, hgen]
  | atLoopYield =>
      refine ⟨Or.inl ?_, ?_, ?_, ?_, ?_, ?_⟩ <;> simp [resumeSub]
  | closed =>
      refine ⟨Or.inl ?_, ?_, ?_, ?_, ?_, ?_⟩ <;> simp [resumeSub]

theorem resumeSub_clientId (latest : LatestReport) (flag : Bool)
    (sub : Subscriber) : (resumeSub latest flag sub).1.clientId = sub.clientId := by
  rcases sub with ⟨cid, ph, rcv⟩
  cases ph <;> simp [resumeSub, emitLatest] <;> split_ifs <;> rfl

/-! ## How each step acts on `getSub` -/

theorem getSub_broadcastPublish (fn ct : String) (s : Sys) (cid : Nat) :
    getSub (broadcastPublish fn ct s) cid =
      (getSub s cid).map (fun x =>
        if x.phase = Phase.waiting then { x with phase := Phase.woken } else x) := by
  unfold getSub broadcastPublish wakeAll
  exact find?_map_of_pred _ _ (fun x => by split <;> rfl) _

theorem getSub_resumeClient_self (s : Sys) (cid : Nat) (sub : Subscriber)
    (h : getSub s cid = some sub) :
    getSub (resumeClient s cid) cid =
      some (resumeSub s.latest_report s.report_event sub).1 := by
  have h' : s.sessions.find? (fun x => x.clientId == cid) = some sub := h
  have hcid : (sub.clientId == cid) = true :=
    List.find?_some (p := fun x : Subscriber => x.clientId == cid) h'
  have hfix : ((resumeSub s.latest_report s.report_event sub).1.clientId == cid) = true := by
    rw [resumeSub_clientId]; exact hcid
  simp only [resumeClient, h', getSub]
  rw [find?_map_of_pred _ _ (fun x : Subscriber => by
    by_cases hx : (x.clientId == cid) = true <;> simp [hx, hfix]), h']
  have hc2 : sub.clientId = cid := by simpa using hcid
  simp [hc2]

theorem getSub_resumeClient_ne (s : Sys) (cid cid' : Nat) (hne : cid' ≠ cid) :
    getSub (resumeClient s cid) cid' = getSub s cid' := by
  cases h : s.sessions.find? (fun x => x.clientId == cid) with
  | none => simp only [resumeClient, h]
  | some sub =>
      have hcid : (sub.clientId == cid) = true :=
        List.find?_some (p := fun x : Subscriber => x.clientId == cid) h
      have hc2 : sub.clientId = cid := by simpa using hcid
      have hfix : ((resumeSub s.latest_report s.report_event sub).1.clientId == cid') =
          (sub.clientId == cid') := by rw [resumeSub_clientId]
      simp only [resumeClient, h, getSub]
      rw [find?_map_of_pred _ _ (fun x : Subscriber => by
        by_cases hx : (x.clientId == cid) = true
        · have hx2 : x.clientId = cid := by simpa using hx
          simp [hx, hfix, hx2, hc2]
        · simp [hx])]
      cases h2 : s.sessions.find? (fun x : Subscriber => x.clientId == cid') with
      | none => rfl
      | some y =>
          have hy : (y.clientId == cid') = true :=
            List.find?_some (p := fun x : Subscriber => x.clientId == cid') h2
          have hyne2 : ¬ y.clientId = cid := by
            rw [beq_iff_eq] at hy
            rw [hy]
            exact hne
          simp [hyne2]

theorem getSub_cancelClient_self (s : Sys) (cid : Nat) (sub : Subscriber)
    (h : getSub s cid = some sub) (hph : sub.phase ≠ Phase.closed) :
    getSub (cancelClient s cid) cid = some { sub with phase := Phase.closed } := by
  have h' : s.sessions.find? (fun x => x.clientId == cid) = some sub := h
  have hcid : (sub.clientId == cid) = true :=
    List.find?_some (p := fun x : Subscriber => x.clientId == cid) h'
  simp only [cancelClient, h', if_neg hph, getSub]
  rw [find?_map_of_pred _ _ (fun x : Subscriber => by
    by_cases hx : (x.clientId == cid) = true <;> simp [hx]), h']
  have hc2 : sub.clientId = cid := by simpa using hcid
  simp [hc2]

theorem getSub_cancelClient_ne (s : Sys) (cid cid' : Nat) (hne : cid' ≠ cid) :
    getSub (cancelClient s cid) cid' = getSub s cid' := by
  cases h : s.sessions.find? (fun x => x.clientId == cid) with
  | none => simp only [cancelClient, h]
  | some sub =>
      by_cases hph : sub.phase = Phase.closed
      · simp only [cancelClient, h, if_pos hph]
      · simp only [cancelClient, h, if_neg hph, getSub]
        rw [find?_map_of_pred _ _ (fun x : Subscriber => by
          by_cases hx : (x.clientId == cid) = true <;> simp [hx])]
        cases h2 : s.sessions.find? (fun x : Subscriber => x.clientId == cid') with
        | none => rfl
        | some y =>
            have hy : (y.clientId == cid') = true :=
              List.find?_some (p := fun x : Subscriber => x.clientId == cid') h2
            have hyne : (y.clientId == cid) = false := by
              rw [beq_eq_false_iff_ne]
              rw [beq_iff_eq] at hy
              rw [hy]
              exact hne
            have hyne2 : ¬ y.clientId = cid := beq_eq_false_iff_ne.mp hyne
            simp [hyne2]

theorem getSub_joinClient_self (s : Sys) (cid : Nat) (h : getSub s cid = none) :
    getSub (joinClient s cid) cid =
      some { clientId := cid, phase := Phase.atConnectedYield,
             received := [SSEEvent.connected] } := by
  have h' : s.sessions.find? (fun x => x.clientId == cid) = none := h
  have hany : s.sessions.any (fun x => x.clientId == cid) = false := by
    rw [List.any_eq_false]
    exact List.find?_eq_none.mp h'
  simp only [joinClient, hany, Bool.false_eq_true, if_false, getSub, List.find?_append, h']
  simp

theorem getSub_joinClient_ne (s : Sys) (cid cid' : Nat) (hne : cid' ≠ cid) :
    getSub (joinClient s cid) cid' = getSub s cid' := by
  by_cases hany : s.sessions.any (fun x => x.clientId == cid) = true
  · simp only [joinClient, hany, if_true]
  · simp only [joinClient, hany, if_false, getSub, List.find?_append]
    cases h2 : s.sessions.find? (fun x : Subscriber => x.clientId == cid') with
    | none =>
        have hb : (cid == cid') = false := beq_eq_false_iff_ne.mpr (Ne.symm hne)
        simp [List.find?, h2, hb]
    | some y => simp [h2]

theorem joinClient_present (s : Sys) (cid : Nat) (sub : Subscriber)
    (h : getSub s cid = some sub) : joinClient s cid = s := by
  have h' : s.sessions.find? (fun x => x.clientId == cid) = some sub := h
  have hmem := List.mem_of_find?_eq_some h'
  have hcid : (sub.clientId == cid) = true :=
    List.find?_some (p := fun x : Subscriber => x.clientId == cid) h'
  unfold joinClient
  rw [if_pos]
  exact List.any_eq_true.mpr ⟨sub, hmem, hcid⟩

/-! ## Preservation of the invariant and monotonicity of the generation -/

theorem inv_join (s : Sys) (cid : Nat) (h : Inv s) : Inv (joinClient s cid) := by
  unfold joinClient
  split
  · exact h
  · constructor
    · exact h.latestGen
    · exact h.flagGen
    · exact h.emptyIff
    · intro sub hmem hph
      rcases List.mem_append.mp hmem with hm | hm
      · exact h.wokenGen sub hm hph
      · simp at hm
        rw [hm] at hph
        simp at hph
    · intro sub hmem fn ct g hev
      rcases List.mem_append.mp hmem with hm | hm
      · exact h.evGen sub hm fn ct g hev
      · simp at hm
        rw [hm] at hev
        simp at hev
    · intro sub hmem
      rcases List.mem_append.mp hmem with hm | hm
      · exact h.headConn sub hm
      · simp at hm
        rw [hm]
        rfl
    · intro sub hmem hph
      rcases List.mem_append.mp hmem with hm | hm
      · have := h.registry sub hm hph
        split
        · exact this
        · exact List.mem_append_left _ this
      · simp at hm
        rw [hm]
        split
        · assumption
        · exact List.mem_append_right _ (by simp)

theorem inv_resume (s : Sys) (cid : Nat) (h : Inv s) : Inv (resumeClient s cid) := by
  unfold resumeClient
  cases hf : s.sessions.find? (fun x => x.clientId == cid) with
  | none => exact h
  | some sub =>
      have hmem := List.mem_of_find?_eq_some hf
      obtain ⟨hrcv, hcid, hwk, _, hclo, hflag⟩ := resumeSub_spec s h sub hmem
      constructor
      · exact h.latestGen
      · intro hfl
        exact h.flagGen (hflag hfl)
      · exact h.emptyIff
      · intro x hx hxw
        rcases List.mem_map.mp hx with ⟨y, hy, rfl⟩
        by_cases hyy : (y.clientId == cid) = true
        · rw [if_pos hyy] at hxw
          exact absurd hxw hwk
        · rw [if_neg hyy] at hxw
          exact h.wokenGen y hy hxw
      · intro x hx fn ct g hev
        rcases List.mem_map.mp hx with ⟨y, hy, rfl⟩
        by_cases hyy : (y.clientId == cid) = true
        · rw [if_pos hyy] at hev
          rcases hrcv with heq | ⟨heq, hg⟩
          · rw [heq] at hev
            exact h.evGen sub hmem fn ct g hev
          · rw [heq] at hev
            rcases List.mem_append.mp hev with hev | hev
            · exact h.evGen sub hmem fn ct g hev
            · simp at hev
              exact ⟨hev.2.2 ▸ hg, hev.2.2 ▸ le_refl s.gen⟩
        · rw [if_neg hyy] at hev
          exact h.evGen y hy fn ct g hev
      · intro x hx
        rcases List.mem_map.mp hx with ⟨y, hy, rfl⟩
        by_cases hyy : (y.clientId == cid) = true
        · rw [if_pos hyy]
          rcases hrcv with heq | ⟨heq, _⟩
          · rw [heq]
            exact h.headConn sub hmem
          · rw [heq]
            exact head?_append_of_head? (h.headConn sub hmem) _
        · rw [if_neg hyy]
          exact h.headConn y hy
      · intro x hx hph
        rcases List.mem_map.mp hx with ⟨y, hy, rfl⟩
        by_cases hyy : (y.clientId == cid) = true
        · rw [if_pos hyy] at hph ⊢
          rw [hcid]
          refine h.registry sub hmem ?_
          intro hs
          refine hph ?_
          rw [hclo hs]
          exact hs
        · rw [if_neg hyy] at hph ⊢
          exact h.registry y hy hph

theorem inv_cancel (s : Sys) (cid : Nat) (h : Inv s) : Inv (cancelClient s cid) := by
  cases hf : s.sessions.find? (fun x => x.clientId == cid) with
  | none => simpa only [cancelClient, hf] using h
  | some sub =>
      by_cases hph0 : sub.phase = Phase.closed
      · simpa only [cancelClient, hf, if_pos hph0] using h
      · simp only [cancelClient, hf, if_neg hph0]
        constructor
        · exact h.latestGen
        · exact h.flagGen
        · exact h.emptyIff
        · intro x hx hxw
          rcases List.mem_map.mp hx with ⟨y, hy, rfl⟩
          by_cases hyy : (y.clientId == cid) = true
          · rw [if_pos hyy] at hxw
            simp at hxw
          · rw [if_neg hyy] at hxw
            exact h.wokenGen y hy hxw
        · intro x hx fn ct g hev
          rcases List.mem_map.mp hx with ⟨y, hy, rfl⟩
          by_cases hyy : (y.clientId == cid) = true
          · rw [if_pos hyy] at hev
            exact h.evGen y hy fn ct g hev
          · rw [if_neg hyy] at hev
            exact h.evGen y hy fn ct g hev
        · intro x hx
          rcases List.mem_map.mp hx with ⟨y, hy, rfl⟩
          by_cases hyy : (y.clientId == cid) = true
          · rw [if_pos hyy]
            exact h.headConn y hy
          · rw [if_neg hyy]
            exact h.headConn y hy
        · intro x hx hph
          rcases List.mem_map.mp hx with ⟨y, hy, rfl⟩
          by_cases hyy : (y.clientId == cid) = true
          · rw [if_pos hyy] at hph
            simp at hph
          · rw [if_neg hyy] at hph ⊢
            have hyne : y.clientId ≠ cid := by simpa using hyy
            have := h.registry y hy hph
            split
            · exact (List.mem_erase_of_ne hyne).mpr this
            · exact this

theorem inv_publish (s : Sys) (ts c : String) (err : Option String) (h : Inv s) :
    Inv ((write_weekly_report_sse ts c err s).2) := by
  unfold write_weekly_report_sse
  by_cases hc : c = ""
  · rw [if_pos hc]
    exact h
  · rw [if_neg hc]
    cases err with
    | some msg => exact h
    | none =>
        constructor
        · rfl
        · intro
          exact Nat.succ_le_succ (Nat.zero_le _)
        · simp [broadcastPublish, mkFilename_ne_empty ts]
        · intro x hx hxw
          exact Nat.succ_le_succ (Nat.zero_le _)
        · intro x hx fn ct g hev
          rcases List.mem_map.mp hx with ⟨y, hy, rfl⟩
          have hb : ∀ fn ct g, SSEEvent.report fn ct g ∈ y.received →
              1 ≤ g ∧ g ≤ s.gen + 1 := by
            intro fn ct g hg
            have := h.evGen y hy fn ct g hg
            exact ⟨this.1, Nat.le_succ_of_le this.2⟩
          by_cases hyy : y.phase = Phase.waiting
          · rw [if_pos hyy] at hev
            exact hb fn ct g hev
          · rw [if_neg hyy] at hev
            exact hb fn ct g hev
        · intro x hx
          rcases List.mem_map.mp hx with ⟨y, hy, rfl⟩
          by_cases hyy : y.phase = Phase.waiting
          · rw [if_pos hyy]
            exact h.headConn y hy
          · rw [if_neg hyy]
            exact h.headConn y hy
        · intro x hx hph
          rcases List.mem_map.mp hx with ⟨y, hy, rfl⟩
          by_cases hyy : y.phase = Phase.waiting
          · rw [if_pos hyy]
            exact h.registry y hy (by rw [hyy]; simp)
          · rw [if_neg hyy] at hph ⊢
            exact h.registry y hy hph

theorem inv_applyLabel (s : Sys) (l : Label) (h : Inv s) : Inv (applyLabel s l) := by
  cases l with
  | join cid => exact inv_join s cid h
  | resume cid => exact inv_resume s cid h
  | publish ts c err => exact inv_publish s ts c err h
  | cancel cid => exact inv_cancel s cid h

theorem reaches_inv {s s' : Sys} (hr : Reaches s s') (h : Inv s) : Inv s' := by
  induction hr with
  | refl => exact h
  | tail _ h2 ih =>
      rcases h2 with ⟨l, rfl⟩
      exact inv_applyLabel _ l ih

theorem reachable_inv {s : Sys} (h : Reachable s) : Inv s :=
  reaches_inv h inv_initSys

theorem gen_joinClient (s : Sys) (cid : Nat) : (joinClient s cid).gen = s.gen := by
  unfold joinClient
  split <;> rfl

theorem gen_resumeClient (s : Sys) (cid : Nat) : (resumeClient s cid).gen = s.gen := by
  unfold resumeClient
  split <;> rfl

theorem gen_cancelClient (s : Sys) (cid : Nat) : (cancelClient s cid).gen = s.gen := by
  unfold cancelClient
  split
  · rfl
  · split <;> rfl

theorem gen_le_applyLabel (s : Sys) (l : Label) : s.gen ≤ (applyLabel s l).gen := by
  cases l with
  | join cid => rw [show applyLabel s (Label.join cid) = joinClient s cid from rfl,
      gen_joinClient]
  | resume cid => rw [show applyLabel s (Label.resume cid) = resumeClient s cid from rfl,
      gen_resumeClient]
  | cancel cid => rw [show applyLabel s (Label.cancel cid) = cancelClient s cid from rfl,
      gen_cancelClient]
  | publish ts c err =>
      show s.gen ≤ (write_weekly_report_sse ts c err s).2.gen
      unfold write_weekly_report_sse
      by_cases hc : c = ""
      · rw [if_pos hc]
      · rw [if_neg hc]
        cases err with
        | some msg => exact le_refl _
        | none => exact Nat.le_succ _

/-! ## State shape of a tool call, and how one step acts on the streams -/

theorem write_state_empty (s : Sys) (ts : String) (err : Option String) :
    (write_weekly_report_sse ts "" err s).2 = s := rfl

theorem write_state_err (s : Sys) (ts c msg : String) (hc : c ≠ "") :
    (write_weekly_report_sse ts c (some msg) s).2 = s := by
  unfold write_weekly_report_sse
  rw [if_neg hc]

theorem write_state_succ (s : Sys) (ts c : String) (hc : c ≠ "") :
    (write_weekly_report_sse ts c none s).2 =
      broadcastPublish (mkFilename ts) c
        { s with files := s.files ++ [(mkFilename ts, c)] } := by
  unfold write_weekly_report_sse
  rw [if_neg hc]

theorem cancelClient_of_closed (s : Sys) (cid : Nat) (sub : Subscriber)
    (h : getSub s cid = some sub) (hph : sub.phase = Phase.closed) :
    cancelClient s cid = s := by
  have h' : s.sessions.find? (fun x => x.clientId == cid) = some sub := h
  simp only [cancelClient, h', if_pos hph]

/-- One step never deletes a session, keeps its client id, and only ever
appends to its stream: the received list either stays, or grows by exactly one
report event carrying the current latest payload stamped with the current
generation — and an emission certifies that at least one publish happened. -/
theorem getSub_applyLabel_receives (s : Sys) (l : Label) (cid : Nat)
    (sub : Subscriber) (hInv : Inv s) (h : getSub s cid = some sub) :
    ∃ sub', getSub (applyLabel s l) cid = some sub' ∧
      sub'.clientId = sub.clientId ∧
      (sub'.received = sub.received ∨
        (sub'.received = sub.received ++
            [SSEEvent.report s.latest_report.filename s.latest_report.content s.gen] ∧
          1 ≤ s.gen)) := by
  cases l with
  | join cid2 =>
      show ∃ sub', getSub (joinClient s cid2) cid = some sub' ∧ _
      by_cases hc : cid2 = cid
      · subst hc
        rw [joinClient_present s cid2 sub h]
        exact ⟨sub, h, rfl, Or.inl rfl⟩
      · rw [getSub_joinClient_ne s cid2 cid (fun hh => hc hh.symm)]
        exact ⟨sub, h, rfl, Or.inl rfl⟩
  | resume cid2 =>
      show ∃ sub', getSub (resumeClient s cid2) cid = some sub' ∧ _
      by_cases hc : cid2 = cid
      · subst hc
        have hmem := List.mem_of_find?_eq_some
          (show s.sessions.find? (fun x => x.clientId == cid2) = some sub from h)
        obtain ⟨hrcv, hcid, _, _, _, _⟩ := resumeSub_spec s hInv sub hmem
        exact ⟨_, getSub_resumeClient_self s cid2 sub h, hcid, hrcv⟩
      · rw [getSub_resumeClient_ne s cid2 cid (fun hh => hc hh.symm)]
        exact ⟨sub, h, rfl, Or.inl rfl⟩
  | publish ts c err =>
      show ∃ sub', getSub (write_weekly_report_sse ts c err s).2 cid = some sub' ∧ _
      by_cases hc : c = ""
      · subst hc
        rw [write_state_empty]
        exact ⟨sub, h, rfl, Or.inl rfl⟩
      · cases err with
        | some msg =>
            rw [write_state_err s ts c msg hc]
            exact ⟨sub, h, rfl, Or.inl rfl⟩
        | none =>
            rw [write_state_succ s ts c hc, getSub_broadcastPublish]
            have hfiles : getSub { s with files := s.files ++ [(mkFilename ts, c)] } cid =
                some sub := h
            rw [hfiles]
            refine ⟨_, rfl, ?_, Or.inl ?_⟩ <;> (dsimp only; split <;> rfl)
  | cancel cid2 =>
      show ∃ sub', getSub (cancelClient s cid2) cid = some sub' ∧ _
      by_cases hc : cid2 = cid
      · subst hc
        by_cases hph : sub.phase = Phase.closed
        · rw [cancelClient_of_closed s cid2 sub h hph]
          exact ⟨sub, h, rfl, Or.inl rfl⟩
        · rw [getSub_cancelClient_self s cid2 sub h hph]
          exact ⟨_, rfl, rfl, Or.inl rfl⟩
      · rw [getSub_cancelClient_ne s cid2 cid (fun hh => hc hh.symm)]
        exact ⟨sub, h, rfl, Or.inl rfl⟩

/-- Membership version: every session of the post-state either extends the
stream of a session of the pre-state as in `getSub_applyLabel_receives`, or is
a fresh session holding only the `connected` acknowledgment. -/
theorem mem_applyLabel_receives (s : Sys) (l : Label) (hInv : Inv s) :
    ∀ sub' ∈ (applyLabel s l).sessions,
      (∃ sub ∈ s.sessions,
        sub'.received = sub.received ∨
          (sub'.received = sub.received ++
              [SSEEvent.report s.latest_report.filename s.latest_report.content s.gen] ∧
            1 ≤ s.gen)) ∨
      sub'.received = [SSEEvent.connected] := by
  cases l with
  | join cid =>
      intro sub' hmem'
      replace hmem' : sub' ∈ (joinClient s cid).sessions := hmem'
      unfold joinClient at hmem'
      split at hmem'
      · exact Or.inl ⟨sub', hmem', Or.inl rfl⟩
      · rcases List.mem_append.mp hmem' with hm | hm
        · exact Or.inl ⟨sub', hm, Or.inl rfl⟩
        · simp at hm
          rw [hm]
          exact Or.inr rfl
  | resume cid =>
      intro sub' hmem'
      replace hmem' : sub' ∈ (resumeClient s cid).sessions := hmem'
      unfold resumeClient at hmem'
      cases hf : s.sessions.find? (fun x => x.clientId == cid) with
      | none =>
          rw [hf] at hmem'
          exact Or.inl ⟨sub', hmem', Or.inl rfl⟩
      | some sub =>
          rw [hf] at hmem'
          have hmem := List.mem_of_find?_eq_some hf
          obtain ⟨hrcv, _, _, _, _, _⟩ := resumeSub_spec s hInv sub hmem
          rcases List.mem_map.mp hmem' with ⟨y, hy, rfl⟩
          by_cases hyy : (y.clientId == cid) = true
          · rw [if_pos hyy]
            exact Or.inl ⟨sub, hmem, hrcv⟩
          · rw [if_neg hyy]
            exact Or.inl ⟨y, hy, Or.inl rfl⟩
  | publish ts c err =>
      intro sub' hmem'
      replace hmem' : sub' ∈ (write_weekly_report_sse ts c err s).2.sessions := hmem'
      by_cases hc : c = ""
      · subst hc
        rw [write_state_empty] at hmem'
        exact Or.inl ⟨sub', hmem', Or.inl rfl⟩
      · cases err with
        | some msg =>
            rw [write_state_err s ts c msg hc] at hmem'
            exact Or.inl ⟨sub', hmem', Or.inl rfl⟩
        | none =>
            rw [write_state_succ s ts c hc] at hmem'
            rcases List.mem_map.mp hmem' with ⟨y, hy, rfl⟩
            refine Or.inl ⟨y, hy, Or.inl ?_⟩
            split <;> rfl
  | cancel cid =>
      intro sub' hmem'
      replace hmem' : sub' ∈ (cancelClient s cid).sessions := hmem'
      cases hf : s.sessions.find? (fun x => x.clientId == cid) with
      | none =>
          rw [show cancelClient s cid = s from by simp only [cancelClient, hf]] at hmem'
          exact Or.inl ⟨sub', hmem', Or.inl rfl⟩
      | some sub =>
          by_cases hph : sub.phase = Phase.closed
          · rw [cancelClient_of_closed s cid sub hf hph] at hmem'
            exact Or.inl ⟨sub', hmem', Or.inl rfl⟩
          · rw [show (cancelClient s cid).sessions =
                s.sessions.map (fun x =>
                  if (x.clientId == cid) = true then { x with phase := Phase.closed }
                  else x) from by simp only [cancelClient, hf, if_neg hph]] at hmem'
            rcases List.mem_map.mp hmem' with ⟨y, hy, rfl⟩
            by_cases hyy : (y.clientId == cid) = true
            · rw [if_pos hyy]
              exact Or.inl ⟨y, hy, Or.inl rfl⟩
            · rw [if_neg hyy]
              exact Or.inl ⟨y, hy, Or.inl rfl⟩

theorem reaches_gen_le {s s' : Sys} (hr : Reaches s s') : s.gen ≤ s'.gen := by
  induction hr with
  | refl => exact le_refl _
  | tail _ h2 ih =>
      rcases h2 with ⟨l, rfl⟩
      exact le_trans ih (gen_le_applyLabel _ l)

/-! ## Trace-level lemmas -/

/-- Along any execution, a session's stream only grows, and everything it
appends is a report event stamped with a generation at least the generation at
the start of the execution (and at least 1). -/
theorem reaches_receives (s s' : Sys) (hr : Reaches s s') (hInv : Inv s)
    (cid : Nat) (sub : Subscriber) (h : getSub s cid = some sub) :
    ∃ sub', getSub s' cid = some sub' ∧ sub'.clientId = sub.clientId ∧
      ∃ tail, sub'.received = sub.received ++ tail ∧
        ∀ e ∈ tail, ∃ fn ct g, e = SSEEvent.report fn ct g ∧ s.gen ≤ g ∧ 1 ≤ g := by
  induction hr with
  | refl => exact ⟨sub, h, rfl, [], by simp, by simp⟩
  | tail h1 h2 ih =>
      rcases h2 with ⟨l, rfl⟩
      rcases ih with ⟨u, hu, hcid, tail, htail, hbound⟩
      have hInv2 : Inv _ := reaches_inv h1 hInv
      rcases getSub_applyLabel_receives _ l cid u hInv2 hu with ⟨u2, hu2, hcid2, hrcv⟩
      refine ⟨u2, hu2, hcid2.trans hcid, ?_⟩
      rcases hrcv with heq | ⟨heq, hg1⟩
      · exact ⟨tail, heq.trans htail, hbound⟩
      · rw [htail, List.append_assoc] at heq
        refine ⟨_, heq, ?_⟩
        intro e he
        rcases List.mem_append.mp he with he | he
        · exact hbound e he
        · simp at he
          subst he
          exact ⟨_, _, _, rfl, reaches_gen_le h1, hg1⟩

theorem resumeSub_of_woken (latest : LatestReport) (flag : Bool)
    (sub : Subscriber) (h : sub.phase = Phase.woken) :
    resumeSub latest flag sub = (emitLatest latest sub Phase.atLoopYield, flag) := by
  unfold resumeSub
  rw [h]

theorem joinClient_latest (s : Sys) (cid : Nat) :
    (joinClient s cid).latest_report = s.latest_report := by
  unfold joinClient
  split <;> rfl

theorem joinClient_flag (s : Sys) (cid : Nat) :
    (joinClient s cid).report_event = s.report_event := by
  unfold joinClient
  split <;> rfl

theorem cancelClient_latest (s : Sys) (cid : Nat) :
    (cancelClient s cid).latest_report = s.latest_report := by
  unfold cancelClient
  split
  · rfl
  · split <;> rfl

theorem cancelClient_flag (s : Sys) (cid : Nat) :
    (cancelClient s cid).report_event = s.report_event := by
  unfold cancelClient
  split
  · rfl
  · split <;> rfl

theorem cancelClient_clients_live (s : Sys) (cid : Nat) (sub : Subscriber)
    (h : getSub s cid = some sub) (hph : sub.phase ≠ Phase.closed) :
    (cancelClient s cid).connected_clients =
      if cid ∈ s.connected_clients then s.connected_clients.erase cid
      else s.connected_clients := by
  have h' : s.sessions.find? (fun x => x.clientId == cid) = some sub := h
  simp only [cancelClient, h', if_neg hph]

/-- A publish (successful or not) never appends to any session's stream. -/
theorem mem_publish_receives (s : Sys) (ts c : String) (err : Option String) :
    ∀ sub' ∈ ((write_weekly_report_sse ts c err s).2).sessions,
      ∃ sub ∈ s.sessions, sub'.received = sub.received := by
  intro sub' hmem'
  by_cases hc : c = ""
  · subst hc
    rw [write_state_empty] at hmem'
    exact ⟨sub', hmem', rfl⟩
  · cases err with
    | some msg =>
        rw [write_state_err s ts c msg hc] at hmem'
        exact ⟨sub', hmem', rfl⟩
    | none =>
        rw [write_state_succ s ts c hc] at hmem'
        rcases List.mem_map.mp hmem' with ⟨y, hy, rfl⟩
        refine ⟨y, hy, ?_⟩
        split <;> rfl

/-! ## The claims -/

/-- C4: calling publish with empty content fails with the empty-content error
as a declined result (not an exception), leaves the broadcaster state — latest
payload, event flag, sessions, registry and files on disk — entirely
unchanged, so no file is written and no waiting subscriber is woken; the plain
server variant likewise declines (returning the serialized error). -/
theorem c4_empty_content (s : Sys) (ts : String) (err : Option String) :
    write_weekly_report_sse ts "" err s =
      ({ success := false, error := some "Report content is required" }, s) ∧
    write_weekly_report ts "" err = PlainReturn.text emptyErrorJson :=
  ⟨rfl, rfl⟩

/-- C9: if persisting the report raises an exception, the publish returns a
failure record carrying the error message, and the state is returned exactly
as it was — the latest payload keeps its prior value, the event flag is not
set, no session changes, so no subscriber is woken by the failed publish. -/
theorem c9_storage_failure (s : Sys) (ts c msg : String) (hc : c ≠ "") :
    write_weekly_report_sse ts c (some msg) s =
      ({ success := false,
         error := some ("Failed to save weekly report: " ++ msg) }, s) := by
  unfold write_weekly_report_sse
  rw [if_neg hc]

/-- Witness for C9 at a concrete input. -/
theorem c9_storage_failure_witness :
    write_weekly_report_sse "20240330_120000" "body" (some "disk full") initSys =
      ({ success := false,
         error := some ("Failed to save weekly report: " ++ "disk full") },
       initSys) :=
  c9_storage_failure initSys "20240330_120000" "body" "disk full" (by decide)

/-- C5 (code bug): the claim that every branch of both server variants returns
a record with a boolean success field fails in exactly one place: the
empty-content branch of the plain server returns `json.dumps(...)` — a string,
not the dict its own `-> dict` annotation and docstring promise.  Every other
branch of both variants does return such a record, with the filename on
success and an error message on failure. -/
theorem c5_record_shape :
    (write_weekly_report "20240330_120000" "" none = PlainReturn.text emptyErrorJson ∧
      ∀ r : ToolResult,
        write_weekly_report "20240330_120000" "" none ≠ PlainReturn.record r) ∧
    (∀ ts c err s, ∃ r : ToolResult, (write_weekly_report_sse ts c err s).1 = r ∧
      (r.success = true ∧ r.filename.isSome = true ∨
        r.success = false ∧ r.error.isSome = true)) ∧
    (∀ ts c err, c ≠ "" → ∃ r : ToolResult,
      write_weekly_report ts c err = PlainReturn.record r ∧
      (r.success = true ∧ r.filename.isSome = true ∨
        r.success = false ∧ r.error.isSome = true)) := by
  refine ⟨⟨rfl, fun r h => PlainReturn.noConfusion h⟩, ?_, ?_⟩
  · intro ts c err s
    by_cases hc : c = ""
    · subst hc
      exact ⟨_, rfl, Or.inr ⟨rfl, rfl⟩⟩
    · cases err with
      | some msg =>
          exact ⟨{ success := false,
                   error := some ("Failed to save weekly report: " ++ msg) },
            by unfold write_weekly_report_sse; rw [if_neg hc], Or.inr ⟨rfl, rfl⟩⟩
      | none =>
          refine ⟨{ success := true,
                    message := some "Weekly report saved successfully and clients notified",
                    filename := some (mkFilename ts),
                    filepath := some (filepathOf (mkFilename ts)),
                    clients_notified := some s.connected_clients.length },
            ?_, Or.inl ⟨rfl, rfl⟩⟩
          unfold write_weekly_report_sse
          rw [if_neg hc]
  · intro ts c err hc
    cases err with
    | some msg =>
        exact ⟨{ success := false,
                 error := some ("Failed to save weekly report: " ++ msg) },
          by unfold write_weekly_report; rw [if_neg hc], Or.inr ⟨rfl, rfl⟩⟩
    | none =>
        refine ⟨{ success := true,
                  message := some "Weekly report saved successfully",
                  filename := some (mkFilename ts),
                  filepath := some (filepathOf (mkFilename ts)) },
          ?_, Or.inl ⟨rfl, rfl⟩⟩
        unfold write_weekly_report
        rw [if_neg hc]

/-- Witness for C5's hypothesis-bearing conjunct at a concrete input. -/
theorem c5_record_shape_witness :
    ∃ r : ToolResult,
      write_weekly_report "20240330_120000" "body" none = PlainReturn.record r ∧
      (r.success = true ∧ r.filename.isSome = true ∨
        r.success = false ∧ r.error.isSome = true) :=
  c5_record_shape.2.2 "20240330_120000" "body" none (by decide)

/-- C6 (counterexample): the value the publish returns counts the *registered*
clients, not the parties that were waiting and woken.  Here one client is
connected but suspended at its initial yield — it is not waiting, nobody is
woken (the publish changes no session), yet the result reports 1 client
notified. -/
theorem c6_counterexample :
    (write_weekly_report_sse "20240330_120000" "body" none
      (joinClient initSys 1)).1.clients_notified = some 1 ∧
    (∀ x ∈ (joinClient initSys 1).sessions, x.phase ≠ Phase.waiting) ∧
    (write_weekly_report_sse "20240330_120000" "body" none
      (joinClient initSys 1)).2.sessions = (joinClient initSys 1).sessions := by
  refine ⟨rfl, ?_, rfl⟩
  decide

/-- C6 (amended): every successful publish returns, in `clients_notified`, the
size of the connected-clients registry observed at wake time — regardless of
how many of those clients were actually waiting. -/
theorem c6_clients_notified (s : Sys) (ts c : String) (hc : c ≠ "") :
    (write_weekly_report_sse ts c none s).1.clients_notified =
      some s.connected_clients.length := by
  unfold write_weekly_report_sse
  rw [if_neg hc]

/-- Witness for C6's amended theorem at a concrete input. -/
theorem c6_clients_notified_witness :
    (write_weekly_report_sse "20240330_120000" "body" none
      (joinClient initSys 1)).1.clients_notified =
      some (joinClient initSys 1).connected_clients.length :=
  c6_clients_notified (joinClient initSys 1) "20240330_120000" "body" (by decide)

/-- C10: before any successful publish (generation 0) the latest payload is
the empty filename and no session has ever received a report event — each
stream starts with the `connected` acknowledgment; the emptiness of the
filename is an exact test for absence, because every successful publish
installs the generated filename, which is never empty. -/
theorem c10_absence_encoding (s : Sys) (hreach : Reachable s) :
    (s.latest_report.filename = "" ↔ s.gen = 0) ∧
    (∀ ts, mkFilename ts ≠ "") ∧
    (∀ ts c, c ≠ "" →
      (write_weekly_report_sse ts c none s).2.latest_report.filename = mkFilename ts) ∧
    (∀ sub ∈ s.sessions, sub.received.head? = some SSEEvent.connected) ∧
    (s.gen = 0 → ∀ sub ∈ s.sessions, ∀ fn ct g,
      SSEEvent.report fn ct g ∉ sub.received) := by
  have hInv := reachable_inv hreach
  refine ⟨hInv.emptyIff, mkFilename_ne_empty, ?_, hInv.headConn, ?_⟩
  · intro ts c hc
    rw [write_state_succ s ts c hc]
    rfl
  · intro h0 sub hmem fn ct g hev
    have := hInv.evGen sub hmem fn ct g hev
    omega

/-- Witness for C10 at a concrete reachable state (one subscriber joined and
pulled once, no publish yet). -/
theorem c10_absence_encoding_witness :
    ((resumeClient (joinClient initSys 1) 1).latest_report.filename = "" ↔
      (resumeClient (joinClient initSys 1) 1).gen = 0) ∧
    (∀ ts, mkFilename ts ≠ "") ∧
    (∀ ts c, c ≠ "" →
      (write_weekly_report_sse ts c none
        (resumeClient (joinClient initSys 1) 1)).2.latest_report.filename =
        mkFilename ts) ∧
    (∀ sub ∈ (resumeClient (joinClient initSys 1) 1).sessions,
      sub.received.head? = some SSEEvent.connected) ∧
    ((resumeClient (joinClient initSys 1) 1).gen = 0 →
      ∀ sub ∈ (resumeClient (joinClient initSys 1) 1).sessions, ∀ fn ct g,
        SSEEvent.report fn ct g ∉ sub.received) :=
  c10_absence_encoding (resumeClient (joinClient initSys 1) 1)
    (Relation.ReflTransGen.tail
      (Relation.ReflTransGen.single ⟨Label.join 1, rfl⟩)
      ⟨Label.resume 1, rfl⟩)

/-- C3: a subscriber joining while the broadcaster already holds a payload
(at least one successful publish completed) receives, on its very next pull
after the `connected` acknowledgment, the current latest payload — no publish
step occurs between the join and the delivery. -/
theorem c3_immediate_delivery (s : Sys) (cid : Nat) (hreach : Reachable s)
    (hgen : 1 ≤ s.gen) (hfresh : getSub s cid = none) :
    s.latest_report.filename ≠ "" ∧
    getSub (resumeClient (joinClient s cid) cid) cid =
      some { clientId := cid, phase := Phase.atInitialYield,
             received := [SSEEvent.connected,
               SSEEvent.report s.latest_report.filename s.latest_report.content
                 s.latest_report.gen] } := by
  have hInv := reachable_inv hreach
  have hfn : s.latest_report.filename ≠ "" := by
    intro h0
    rw [hInv.emptyIff] at h0
    omega
  refine ⟨hfn, ?_⟩
  have h1 := getSub_joinClient_self s cid hfresh
  rw [getSub_resumeClient_self (joinClient s cid) cid _ h1,
    joinClient_latest, joinClient_flag]
  simp [resumeSub, emitLatest, hfn]

/-- Witness for C3: the broadcaster holds the payload of one publish and a
fresh subscriber (id 1) joins. -/
theorem c3_immediate_delivery_witness :
    (applyLabel initSys
        (Label.publish "20240330_120000" "Report A" none)).latest_report.filename ≠ "" ∧
    getSub (resumeClient (joinClient
        (applyLabel initSys (Label.publish "20240330_120000" "Report A" none)) 1) 1) 1 =
      some { clientId := 1, phase := Phase.atInitialYield,
             received := [SSEEvent.connected,
               SSEEvent.report
                 (applyLabel initSys
                   (Label.publish "20240330_120000" "Report A" none)).latest_report.filename
                 (applyLabel initSys
                   (Label.publish "20240330_120000" "Report A" none)).latest_report.content
                 (applyLabel initSys
                   (Label.publish "20240330_120000" "Report A" none)).latest_report.gen] } :=
  c3_immediate_delivery
    (applyLabel initSys (Label.publish "20240330_120000" "Report A" none)) 1
    (Relation.ReflTransGen.single ⟨Label.publish "20240330_120000" "Report A" none, rfl⟩)
    (by decide) (by decide)

/-- C8: cancelling a live subscriber closes its session, shrinks the registry
by exactly one, is idempotent (a second cancellation of the same client is a
complete no-op: never double-unregistered), touches neither the latest payload
nor the event flag nor any other subscriber's session, and a publish performed
right after the cancellation still succeeds. -/
theorem c8_cancellation (s : Sys) (cid : Nat) (sub : Subscriber)
    (hreach : Reachable s) (hsub : getSub s cid = some sub)
    (hph : sub.phase ≠ Phase.closed) :
    (get_connected_clients (cancelClient s cid)).connected_clients + 1 =
      (get_connected_clients s).connected_clients ∧
    cancelClient (cancelClient s cid) cid = cancelClient s cid ∧
    (cancelClient s cid).latest_report = s.latest_report ∧
    (cancelClient s cid).report_event = s.report_event ∧
    (∀ cid', cid' ≠ cid → getSub (cancelClient s cid) cid' = getSub s cid') ∧
    (∀ ts c, c ≠ "" →
      (write_weekly_report_sse ts c none (cancelClient s cid)).1.success = true) := by
  have hInv := reachable_inv hreach
  have hsub' : s.sessions.find? (fun x => x.clientId == cid) = some sub := hsub
  have hc2 : sub.clientId = cid := by
    simpa using List.find?_some (p := fun x : Subscriber => x.clientId == cid) hsub'
  have hmemc : cid ∈ s.connected_clients := by
    have := hInv.registry sub (List.mem_of_find?_eq_some hsub') hph
    rwa [hc2] at this
  refine ⟨?_, ?_, cancelClient_latest s cid, cancelClient_flag s cid,
    fun cid' hne => getSub_cancelClient_ne s cid cid' hne, ?_⟩
  · show (cancelClient s cid).connected_clients.length + 1 =
      s.connected_clients.length
    rw [cancelClient_clients_live s cid sub hsub hph, if_pos hmemc,
      List.length_erase_of_mem hmemc]
    have hpos : 0 < s.connected_clients.length := List.length_pos_of_mem hmemc
    omega
  · exact cancelClient_of_closed (cancelClient s cid) cid _
      (getSub_cancelClient_self s cid sub hsub hph) rfl
  · intro ts c hc
    unfold write_weekly_report_sse
    rw [if_neg hc]

/-- Witness for C8: one joined subscriber (id 1), cancelled. -/
theorem c8_cancellation_witness :
    (get_connected_clients (cancelClient (joinClient initSys 1) 1)).connected_clients + 1 =
      (get_connected_clients (joinClient initSys 1)).connected_clients ∧
    cancelClient (cancelClient (joinClient initSys 1) 1) 1 =
      cancelClient (joinClient initSys 1) 1 ∧
    (cancelClient (joinClient initSys 1) 1).latest_report =
      (joinClient initSys 1).latest_report ∧
    (cancelClient (joinClient initSys 1) 1).report_event =
      (joinClient initSys 1).report_event ∧
    (∀ cid', cid' ≠ 1 →
      getSub (cancelClient (joinClient initSys 1) 1) cid' =
        getSub (joinClient initSys 1) cid') ∧
    (∀ ts c, c ≠ "" →
      (write_weekly_report_sse ts c none
        (cancelClient (joinClient initSys 1) 1)).1.success = true) :=
  c8_cancellation (joinClient initSys 1) 1
    { clientId := 1, phase := Phase.atConnectedYield,
      received := [SSEEvent.connected] }
    (Relation.ReflTransGen.single ⟨Label.join 1, rfl⟩) rfl (by decide)

/-- C7 (counterexample): in the scenario "publish, then subscribe", the very
first event the subscriber receives is the `connected` acknowledgment, which
is not a report event and carries no reportId — refuting "the first event
carries the published reportId". -/
theorem c7_counterexample :
    (getSub (joinClient (applyLabel initSys
        (Label.publish "20240330_120000" "Report A" none)) 1) 1).map
        (fun sub => sub.received.head?) = some (some SSEEvent.connected) ∧
    ∀ fn ct g, SSEEvent.connected ≠ SSEEvent.report fn ct g :=
  ⟨rfl, fun _ _ _ h => SSEEvent.noConfusion h⟩

/-- The quiescent run of the spec's concrete scenario: publish "Report A";
a subscriber joins and drains (three pulls: the connected acknowledgment, then
the stored latest report, then — because the wake flag set by the pre-join
publish is still up — the same report again, after which the subscriber clears
the flag and waits); then publish "Report B" and the woken subscriber pulls
once more. -/
def c7Run : Sys :=
  applyLabel (applyLabel (applyLabel (applyLabel (applyLabel (applyLabel
    (applyLabel initSys (Label.publish "20240330_120000" "Report A" none))
    (Label.join 1)) (Label.resume 1)) (Label.resume 1)) (Label.resume 1))
    (Label.publish "20240330_120100" "Report B" none)) (Label.resume 1)

/-- C7 (amended): in the concrete scenario the subscriber's first event is the
`connected` acknowledgment; its following events are the report of the first
publish carrying that publish's reportId (the generated filename) and content
"Report A" — delivered twice, because the wake flag set by the pre-join
publish is still up when the subscriber first waits — and after the second
publish the subscriber's next received event carries the second publish's
reportId and content "Report B". -/
theorem c7_amended_scenario :
    getSub c7Run 1 =
      some { clientId := 1, phase := Phase.atLoopYield,
             received := [SSEEvent.connected,
               SSEEvent.report (mkFilename "20240330_120000") "Report A" 1,
               SSEEvent.report (mkFilename "20240330_120000") "Report A" 1,
               SSEEvent.report (mkFilename "20240330_120100") "Report B" 2] } := by
  decide

theorem getSub_publish_wakes (s : Sys) (ts c : String) (hc : c ≠ "")
    (cid : Nat) (sub : Subscriber) (hsub : getSub s cid = some sub)
    (hw : sub.phase = Phase.waiting) :
    getSub (applyLabel s (Label.publish ts c none)) cid =
      some { sub with phase := Phase.woken } := by
  rw [show applyLabel s (Label.publish ts c none) =
      (write_weekly_report_sse ts c none s).2 from rfl,
    write_state_succ s ts c hc, getSub_broadcastPublish]
  rw [show getSub { s with files := s.files ++ [(mkFilename ts, c)] } cid =
      some sub from hsub]
  dsimp only [Option.map]
  rw [if_pos hw]

theorem getSub_publish_keeps (s : Sys) (ts c : String) (hc : c ≠ "")
    (cid : Nat) (sub : Subscriber) (hsub : getSub s cid = some sub)
    (hw : sub.phase ≠ Phase.waiting) :
    getSub (applyLabel s (Label.publish ts c none)) cid = some sub := by
  rw [show applyLabel s (Label.publish ts c none) =
      (write_weekly_report_sse ts c none s).2 from rfl,
    write_state_succ s ts c hc, getSub_broadcastPublish]
  rw [show getSub { s with files := s.files ++ [(mkFilename ts, c)] } cid =
      some sub from hsub]
  dsimp only [Option.map]
  rw [if_neg hw]

/-- C1: a successful publish immediately resolves the wait of every subscriber
that was pending in `report_event.wait()` when the publish ran (its session
moves to `woken`, its stream untouched — no lost wakeup, even if some other
woken subscriber later clears the shared flag); from then on, everything that
subscriber's stream ever receives is a report event stamped with the
generation of this publish or a strictly later one, and whenever the woken
subscriber is scheduled it delivers exactly one such report event. -/
theorem c1_no_lost_wakeup (s : Sys) (ts c : String) (cid : Nat)
    (sub : Subscriber) (hreach : Reachable s) (hc : c ≠ "")
    (hsub : getSub s cid = some sub) (hw : sub.phase = Phase.waiting) :
    getSub (applyLabel s (Label.publish ts c none)) cid =
      some { sub with phase := Phase.woken } ∧
    (∀ s', Reaches (applyLabel s (Label.publish ts c none)) s' →
      (∃ sub', getSub s' cid = some sub' ∧
        ∃ tail, sub'.received = sub.received ++ tail ∧
          ∀ e ∈ tail, ∃ fn ct g, e = SSEEvent.report fn ct g ∧ s.gen + 1 ≤ g) ∧
      (∀ sub', getSub s' cid = some sub' → sub'.phase = Phase.woken →
        ∃ fn ct g, s.gen + 1 ≤ g ∧
          getSub (resumeClient s' cid) cid =
            some { sub' with
                   phase := Phase.atLoopYield
                   received := sub'.received ++ [SSEEvent.report fn ct g] })) := by
  have hA := getSub_publish_wakes s ts c hc cid sub hsub hw
  refine ⟨hA, ?_⟩
  intro s' hr
  have hreach1 : Reachable (applyLabel s (Label.publish ts c none)) :=
    Relation.ReflTransGen.tail hreach ⟨Label.publish ts c none, rfl⟩
  have hInv1 : Inv (applyLabel s (Label.publish ts c none)) :=
    reachable_inv hreach1
  have hgen1 : (applyLabel s (Label.publish ts c none)).gen = s.gen + 1 := by
    rw [show applyLabel s (Label.publish ts c none) =
        (write_weekly_report_sse ts c none s).2 from rfl,
      write_state_succ s ts c hc]
    rfl
  constructor
  · rcases reaches_receives _ s' hr hInv1 cid _ hA with
      ⟨sub', hsub', hcid', tail, htail, hbound⟩
    refine ⟨sub', hsub', tail, htail, ?_⟩
    intro e he
    rcases hbound e he with ⟨fn, ct, g, hee, hge, _⟩
    rw [hgen1] at hge
    exact ⟨fn, ct, g, hee, hge⟩
  · intro sub' hsub' hwoken
    have hInv' : Inv s' := reaches_inv hr hInv1
    refine ⟨s'.latest_report.filename, s'.latest_report.content,
      s'.latest_report.gen, ?_, ?_⟩
    · rw [hInv'.latestGen]
      have := reaches_gen_le hr
      rw [hgen1] at this
      exact this
    · rw [getSub_resumeClient_self s' cid sub' hsub',
        resumeSub_of_woken _ _ _ hwoken]
      rfl

/-- Witness for C1: one subscriber joined and pulled once, so it is pending in
the wait; then `publish` runs. -/
theorem c1_no_lost_wakeup_witness :
    getSub (applyLabel (applyLabel (applyLabel initSys (Label.join 1))
        (Label.resume 1)) (Label.publish "20240330_120000" "body" none)) 1 =
      some { clientId := 1, phase := Phase.woken,
             received := [SSEEvent.connected] } ∧
    (∀ s', Reaches (applyLabel (applyLabel (applyLabel initSys (Label.join 1))
        (Label.resume 1)) (Label.publish "20240330_120000" "body" none)) s' →
      (∃ sub', getSub s' 1 = some sub' ∧
        ∃ tail, sub'.received = [SSEEvent.connected] ++ tail ∧
          ∀ e ∈ tail, ∃ fn ct g, e = SSEEvent.report fn ct g ∧
            (applyLabel (applyLabel initSys (Label.join 1))
              (Label.resume 1)).gen + 1 ≤ g) ∧
      (∀ sub', getSub s' 1 = some sub' → sub'.phase = Phase.woken →
        ∃ fn ct g,
          (applyLabel (applyLabel initSys (Label.join 1))
            (Label.resume 1)).gen + 1 ≤ g ∧
          getSub (resumeClient s' 1) 1 =
            some { sub' with
                   phase := Phase.atLoopYield
                   received := sub'.received ++ [SSEEvent.report fn ct g] })) :=
  c1_no_lost_wakeup
    (applyLabel (applyLabel initSys (Label.join 1)) (Label.resume 1))
    "20240330_120000" "body" 1
    { clientId := 1, phase := Phase.waiting, received := [SSEEvent.connected] }
    (Relation.ReflTransGen.tail
      (Relation.ReflTransGen.single ⟨Label.join 1, rfl⟩) ⟨Label.resume 1, rfl⟩)
    (by decide) rfl rfl

/-- C2: after two back-to-back successful publishes with no step in between,
no subscriber — whenever it is scheduled, then or later — ever receives the
first publish's payload (its generation `s.gen + 1` never appears in any
stream), and every subscriber that was waiting when the first publish ran
delivers, when next scheduled, exactly the second payload. -/
theorem c2_coalescing (s : Sys) (ts1 c1 ts2 c2 : String)
    (hreach : Reachable s) (hc1 : c1 ≠ "") (hc2 : c2 ≠ "") :
    (∀ s', Reaches (applyLabel (applyLabel s (Label.publish ts1 c1 none))
        (Label.publish ts2 c2 none)) s' →
      ∀ sub ∈ s'.sessions, ∀ fn ct,
        SSEEvent.report fn ct (s.gen + 1) ∉ sub.received) ∧
    (∀ cid sub, getSub s cid = some sub → sub.phase = Phase.waiting →
      getSub (resumeClient (applyLabel (applyLabel s (Label.publish ts1 c1 none))
          (Label.publish ts2 c2 none)) cid) cid =
        some { sub with
               phase := Phase.atLoopYield
               received := sub.received ++
                 [SSEEvent.report (mkFilename ts2) c2 (s.gen + 2)] }) := by
  have hInv := reachable_inv hreach
  have hreach1 : Reachable (applyLabel s (Label.publish ts1 c1 none)) :=
    Relation.ReflTransGen.tail hreach ⟨Label.publish ts1 c1 none, rfl⟩
  have hreach2 : Reachable (applyLabel (applyLabel s (Label.publish ts1 c1 none))
      (Label.publish ts2 c2 none)) :=
    Relation.ReflTransGen.tail hreach1 ⟨Label.publish ts2 c2 none, rfl⟩
  have hInv2 := reachable_inv hreach2
  have hgen1 : (applyLabel s (Label.publish ts1 c1 none)).gen = s.gen + 1 := by
    rw [show applyLabel s (Label.publish ts1 c1 none) =
        (write_weekly_report_sse ts1 c1 none s).2 from rfl,
      write_state_succ s ts1 c1 hc1]
    rfl
  have hgen2 : (applyLabel (applyLabel s (Label.publish ts1 c1 none))
      (Label.publish ts2 c2 none)).gen = s.gen + 2 := by
    rw [show applyLabel (applyLabel s (Label.publish ts1 c1 none))
          (Label.publish ts2 c2 none) =
        (write_weekly_report_sse ts2 c2 none
          (applyLabel s (Label.publish ts1 c1 none))).2 from rfl,
      write_state_succ _ ts2 c2 hc2]
    show (applyLabel s (Label.publish ts1 c1 none)).gen + 1 = s.gen + 2
    rw [hgen1]
  have hlat2 : (applyLabel (applyLabel s (Label.publish ts1 c1 none))
      (Label.publish ts2 c2 none)).latest_report =
      { filename := mkFilename ts2, content := c2, gen := s.gen + 2 } := by
    rw [show applyLabel (applyLabel s (Label.publish ts1 c1 none))
          (Label.publish ts2 c2 none) =
        (write_weekly_report_sse ts2 c2 none
          (applyLabel s (Label.publish ts1 c1 none))).2 from rfl,
      write_state_succ _ ts2 c2 hc2]
    show ({ filename := mkFilename ts2, content := c2,
            gen := (applyLabel s (Label.publish ts1 c1 none)).gen + 1 } :
          LatestReport) = _
    rw [hgen1]
  constructor
  · intro s' hr
    induction hr with
    | refl =>
        intro sub2 hm2 fn ct hcontra
        rcases mem_publish_receives (applyLabel s (Label.publish ts1 c1 none))
            ts2 c2 none sub2 hm2 with ⟨sub1, hm1, he1⟩
        rcases mem_publish_receives s ts1 c1 none sub1 hm1 with ⟨sub0, hm0, he0⟩
        rw [he1, he0] at hcontra
        have := hInv.evGen sub0 hm0 fn ct (s.gen + 1) hcontra
        omega
    | tail h1 h2 ih =>
        rcases h2 with ⟨l, rfl⟩
        intro sub' hmem' fn ct hcontra
        have hInvt : Inv _ := reaches_inv h1 hInv2
        have htgen : s.gen + 2 ≤ _:= hgen2 ▸ reaches_gen_le h1
        rcases mem_applyLabel_receives _ l hInvt sub' hmem' with
          ⟨sub0, hm0, he0 | ⟨he0, _⟩⟩ | hfresh
        · rw [he0] at hcontra
          exact ih sub0 hm0 fn ct hcontra
        · rw [he0] at hcontra
          rcases List.mem_append.mp hcontra with hin | hin
          · exact ih sub0 hm0 fn ct hin
          · simp at hin
            have hInvt2 := hInvt.latestGen
            omega
        · rw [hfresh] at hcontra
          simp at hcontra
  · intro cid sub hsub hw
    have h1 := getSub_publish_wakes s ts1 c1 hc1 cid sub hsub hw
    have h2 := getSub_publish_keeps (applyLabel s (Label.publish ts1 c1 none))
      ts2 c2 hc2 cid { sub with phase := Phase.woken } h1
      (fun h => Phase.noConfusion h)
    rw [getSub_resumeClient_self _ cid _ h2,
      resumeSub_of_woken _ _ _ rfl, hlat2]
    rfl

/-- Witness for C2: one subscriber joined and waiting, then two back-to-back
publishes. -/
theorem c2_coalescing_witness :
    (∀ s', Reaches (applyLabel (applyLabel
        (applyLabel (applyLabel initSys (Label.join 1)) (Label.resume 1))
        (Label.publish "20240330_120000" "Report A" none))
        (Label.publish "20240330_120100" "Report B" none)) s' →
      ∀ sub ∈ s'.sessions, ∀ fn ct,
        SSEEvent.report fn ct
          ((applyLabel (applyLabel initSys (Label.join 1)) (Label.resume 1)).gen + 1) ∉
          sub.received) ∧
    (∀ cid sub,
      getSub (applyLabel (applyLabel initSys (Label.join 1)) (Label.resume 1)) cid =
        some sub →
      sub.phase = Phase.waiting →
      getSub (resumeClient (applyLabel (applyLabel
          (applyLabel (applyLabel initSys (Label.join 1)) (Label.resume 1))
          (Label.publish "20240330_120000" "Report A" none))
          (Label.publish "20240330_120100" "Report B" none)) cid) cid =
        some { sub with
               phase := Phase.atLoopYield
               received := sub.received ++
                 [SSEEvent.report (mkFilename "20240330_120100") "Report B"
                   ((applyLabel (applyLabel initSys (Label.join 1))
                     (Label.resume 1)).gen + 2)] }) :=
  c2_coalescing (applyLabel (applyLabel initSys (Label.join 1)) (Label.resume 1))
    "20240330_120000" "Report A" "20240330_120100" "Report B"
    (Relation.ReflTransGen.tail
      (Relation.ReflTransGen.single ⟨Label.join 1, rfl⟩) ⟨Label.resume 1, rfl⟩)
    (by decide) (by decide)

end MCPDemo
